import Mathlib

/-!
Verification of the H.F Capital CRM controllers (src/companies/views.py and
src/leads/views.py) against their natural-language specification.

The Python views are shallowly embedded: Django model instances become Lean
structures, querysets become lists, request parameters become `Option String`,
and the external collaborators (the enrichment lookup and the mailing-list
sync) become function parameters.  Python truthiness of field values is made
explicit through `FieldVal.truthy`.
-/

/-- A Python attribute value as stored on a `Company` model instance:
`None`, a string, or an integer (for `company_size`). -/
inductive FieldVal
  | none
  | str (s : String)
  | int (n : Int)
  deriving DecidableEq

/-- `value is None or value == ''` — the emptiness test applied to the
collaborator-returned value in `company_enrich` (companies/views.py line 290). -/
def FieldVal.isNoneOrEmptyStr : FieldVal → Bool
  | .none => true
  | .str s => s == ""
  | .int _ => false

/-- Python truthiness of a field value (`not current`, line 293):
`None`, `''` and `0` are falsy. -/
def FieldVal.truthy : FieldVal → Bool
  | .none => false
  | .str s => s != ""
  | .int n => n != 0

/-- The fifteen enrichable company fields (the `fields` list in
`company_enrich`, companies/views.py lines 274-278). -/
inductive CField
  | work_website | linkedin | company_name | industry | company_size
  | hq_country | org_type | tech_stack | street | city | state
  | postal_code | country | work_phone | facebook
  deriving DecidableEq

/-- The `fields` list of `company_enrich`, in source order. -/
def companyEnrichFields : List CField :=
  [.work_website, .linkedin, .company_name, .industry, .company_size,
   .hq_country, .org_type, .tech_stack, .street, .city, .state,
   .postal_code, .country, .work_phone, .facebook]

/-- The per-field merge loop of `company_enrich` (companies/views.py lines
287-295): for each field of the list, the collaborator value is skipped when
`None`/`''`; otherwise it is written (`setattr`) when `overwrite or not
current`, and the `updated` flag is raised.  The company's attributes are the
function `CField → FieldVal`; `setattr` is `Function.update`. -/
def mergeFields (overwrite : Bool) (data : CField → FieldVal) :
    List CField → (CField → FieldVal) → Bool → (CField → FieldVal) × Bool
  | [], attrs, updated => (attrs, updated)
  | f :: rest, attrs, updated =>
    let value := data f
    if value.isNoneOrEmptyStr then
      mergeFields overwrite data rest attrs updated
    else
      let current := attrs f
      if overwrite || !current.truthy then
        mergeFields overwrite data rest (Function.update attrs f value) true
      else
        mergeFields overwrite data rest attrs updated

lemma mergeFields_not_mem (overwrite : Bool) (data : CField → FieldVal)
    (l : List CField) (attrs : CField → FieldVal) (u : Bool) (f : CField)
    (hf : f ∉ l) :
    (mergeFields overwrite data l attrs u).1 f = attrs f := by
  induction l generalizing attrs u with
  | nil => rfl
  | cons g rest ih =>
    have hfg : f ≠ g := fun h => hf (h ▸ List.mem_cons_self g rest)
    have hfr : f ∉ rest := fun h => hf (List.mem_cons_of_mem g h)
    simp only [mergeFields]
    split
    · exact ih attrs u hfr
    · split
      · rw [ih _ true hfr, Function.update_noteq hfg]
      · exact ih attrs u hfr

lemma mergeFields_mem (overwrite : Bool) (data : CField → FieldVal)
    (l : List CField) (attrs : CField → FieldVal) (u : Bool) (f : CField)
    (hf : f ∈ l) (hnd : l.Nodup) :
    (mergeFields overwrite data l attrs u).1 f =
      if !(data f).isNoneOrEmptyStr && (overwrite || !(attrs f).truthy)
      then data f else attrs f := by
  induction l generalizing attrs u with
  | nil => cases hf
  | cons g rest ih =>
    rcases List.nodup_cons.mp hnd with ⟨hg, hndr⟩
    by_cases hfg : f = g
    · subst hfg
      simp only [mergeFields]
      split
      · rename_i hempty
        rw [mergeFields_not_mem _ _ _ _ _ _ hg]
        simp [hempty]
      · rename_i hempty
        split
        · rename_i hcond
          rw [mergeFields_not_mem _ _ _ _ _ _ hg, Function.update_same]
          simp only [Bool.not_eq_true] at hempty
          simp [hempty, hcond]
        · rename_i hcond
          rw [mergeFields_not_mem _ _ _ _ _ _ hg]
          simp only [Bool.not_eq_true] at hempty
          simp only [Bool.or_eq_true, not_or, Bool.not_eq_true] at hcond
          simp [hempty, hcond]
    · have hfr : f ∈ rest := (List.mem_cons.mp hf).resolve_left hfg
      simp only [mergeFields]
      split
      · exact ih attrs u hfr hndr
      · split
        · rw [ih _ true hfr hndr, Function.update_noteq hfg]
        · exact ih attrs u hfr hndr

lemma companyEnrichFields_nodup : companyEnrichFields.Nodup := by decide

lemma companyEnrichFields_mem (f : CField) : f ∈ companyEnrichFields := by
  cases f <;> decide

/-- C1 — For every company record and every field of the fixed enrichable
field list, the merge of `company_enrich` writes the collaborator-returned
value to the field if and only if that value is non-empty (not `None` and not
`''`) and either overwrite mode is on or the current value is falsy;
otherwise the field keeps its current value.  In particular, fill mode never
changes a populated field, and overwrite mode writes every non-empty
returned field. -/
theorem c1_merge_policy (overwrite : Bool) (data attrs : CField → FieldVal)
    (f : CField) :
    (mergeFields overwrite data companyEnrichFields attrs false).1 f =
      if !(data f).isNoneOrEmptyStr && (overwrite || !(attrs f).truthy)
      then data f else attrs f :=
  mergeFields_mem overwrite data companyEnrichFields attrs false f
    (companyEnrichFields_mem f) companyEnrichFields_nodup

/-- A flash message, tagged with the `django.contrib.messages` level used. -/
inductive Msg
  | success (s : String)
  | error (s : String)
  | info (s : String)
  deriving DecidableEq

/-- The `enriched` / `skipped` / `errors` counters of an enrichment run. -/
structure Tally where
  enriched : Nat
  skipped : Nat
  errors : Nat
  deriving DecidableEq

/-- How one record of an enrichment run is classified. -/
inductive RecOutcome
  | enrichedO
  | skippedO
  | errorO
  deriving DecidableEq

/-- Bump the counter selected by a record's outcome. -/
def Tally.add (t : Tally) : RecOutcome → Tally
  | .enrichedO => { t with enriched := t.enriched + 1 }
  | .skippedO => { t with skipped := t.skipped + 1 }
  | .errorO => { t with errors := t.errors + 1 }

/-- Behaviour of one `enrich_company(domain)` call: it raises, returns a
falsy value (`None` or an empty mapping), or returns a truthy mapping whose
`.get(field)` values are given by `d` (`FieldVal.none` for a missing key). -/
inductive EnrichOutcome
  | raises
  | empty
  | data (d : CField → FieldVal)

/-- A company row as seen by `company_enrich`: its natural key and its
enrichable attributes. -/
structure CompanyRec where
  domain : String
  attrs : CField → FieldVal

/-- The body of the `for company in companies` loop of `company_enrich`
(companies/views.py lines 280-304) applied to one record: a raised exception
or a falsy collaborator result increments `errors`; otherwise the merge runs
and the record is saved and counted `enriched` when the `updated` flag was
raised, else counted `skipped`. -/
def companyProcessOne (overwrite : Bool) (collab : String → EnrichOutcome)
    (c : CompanyRec) : CompanyRec × RecOutcome :=
  match collab c.domain with
  | .raises => (c, .errorO)
  | .empty => (c, .errorO)
  | .data d =>
    let r := mergeFields overwrite d companyEnrichFields c.attrs false
    if r.2 then ({ c with attrs := r.1 }, .enrichedO) else (c, .skippedO)

/-- Result of the candidate loop of `company_enrich`: the saved records, the
tallies, and the domains passed to the collaborator, in call order. -/
structure CLoopResult where
  records : List CompanyRec
  tally : Tally
  calls : List String

/-- The candidate loop of `company_enrich` over the materialized candidate
queryset. -/
def companyEnrichLoop (overwrite : Bool) (collab : String → EnrichOutcome) :
    List CompanyRec → CLoopResult
  | [] => { records := [], tally := ⟨0, 0, 0⟩, calls := [] }
  | c :: rest =>
    let p := companyProcessOne overwrite collab c
    let r := companyEnrichLoop overwrite collab rest
    { records := p.1 :: r.records,
      tally := r.tally.add p.2,
      calls := c.domain :: r.calls }

/-- A lead row as seen by `lead_enrich`: its primary key and the four
fill-mode filter fields. -/
structure LeadERec where
  pk : String
  pdl_first_name : Option String
  pdl_last_name : Option String
  pdl_job_title : Option String
  pdl_linkedin_url : Option String
  deriving DecidableEq

/-- Behaviour of one `enrich_lead(lead, ...)` call: it raises, returns a
falsy value, or returns a truthy mapping whose `skipped` entry has the given
truthiness. -/
inductive LeadEnrichOutcome
  | raises
  | empty
  | result (skipped : Bool)

/-- The body of the `for lead in leads` loop of `lead_enrich`
(leads/views.py lines 358-369): a raised exception or a falsy result counts
as an error; a truthy result counts as skipped when its `skipped` entry is
truthy and as enriched otherwise. -/
def leadProcessOne (collab : String → LeadEnrichOutcome) (l : LeadERec) :
    RecOutcome :=
  match collab l.pk with
  | .raises => .errorO
  | .empty => .errorO
  | .result s => if s then .skippedO else .enrichedO

/-- The candidate loop of `lead_enrich`: tallies plus the pks passed to the
collaborator, in call order. -/
def leadEnrichLoop (collab : String → LeadEnrichOutcome) :
    List LeadERec → Tally × List String
  | [] => (⟨0, 0, 0⟩, [])
  | l :: rest =>
    let o := leadProcessOne collab l
    let r := leadEnrichLoop collab rest
    (r.1.add o, l.pk :: r.2)

/-- Python truthiness of an `os.getenv` result: absent (`None`) and `''`
are falsy. -/
def envTruthy : Option String → Bool
  | .none => false
  | .some s => s != ""

/-- `mode = request.GET.get('mode', 'empty'); overwrite = mode == 'all'`
(companies/views.py lines 242-243 and leads/views.py lines 337-338). -/
def enrichOverwrite (modeParam : Option String) : Bool :=
  (modeParam.getD "empty") == "all"

/-- A string field is a fill-mode candidate criterion when null or `''`. -/
def optMissing : Option String → Bool
  | .none => true
  | .some s => s == ""

/-- The fill-mode candidate filter of `company_enrich` (the OR of
`isnull`/`''` conditions over the fifteen enrichable fields,
companies/views.py lines 246-263; `company_size` has only the `isnull`
condition). -/
def companyFieldMissing (c : CompanyRec) : Bool :=
  companyEnrichFields.any (fun f =>
    match c.attrs f with
    | .none => true
    | .str s => s == ""
    | .int _ => false)

/-- The fill-mode candidate filter of `lead_enrich` (leads/views.py lines
342-347). -/
def leadFieldMissing (l : LeadERec) : Bool :=
  optMissing l.pdl_first_name || optMissing l.pdl_last_name ||
  optMissing l.pdl_job_title || optMissing l.pdl_linkedin_url

/-- The disabled-feature flash message shared by both enrichment views. -/
def enrichDisabledMsg : String :=
  "AI enrichment is disabled. Add GENAI_API_KEY and OPENAI_API_KEY to keys.env to enable."

/-- The final flash message of `company_enrich` (lines 306-310). -/
def companyEnrichMsg (t : Tally) : String :=
  let m := "Company enrichment completed. Enriched " ++ toString t.enriched ++ " company(s)."
  let m := if t.skipped != 0 then m ++ " Skipped " ++ toString t.skipped ++ "." else m
  if t.errors != 0 then m ++ " " ++ toString t.errors ++ " error(s) occurred." else m

/-- The final flash message of `lead_enrich` (lines 371-375). -/
def leadEnrichMsg (t : Tally) : String :=
  let m := "Lead enrichment completed. Enriched " ++ toString t.enriched ++ " lead(s)."
  let m := if t.skipped != 0 then m ++ " Skipped " ++ toString t.skipped ++ "." else m
  if t.errors != 0 then m ++ " " ++ toString t.errors ++ " error(s) occurred." else m

/-- Result of a `company_enrich` request: the company table afterwards, the
flash messages, and the domains passed to the collaborator. -/
structure CompanyEnrichResult where
  db : List CompanyRec
  msgs : List Msg
  calls : List String

/-- The `company_enrich` view (companies/views.py lines 235-313).  `genai`
and `openai` are the two environment credentials; `modeParam` is the `mode`
request parameter; `collab` embeds `enrich_company`; `db` is the company
table.  When enrichment is disabled the view redirects after an error flash;
otherwise the fill-mode filter selects the candidates, an empty candidate set
short-circuits with an info flash, and the loop runs and reports. -/
def companyEnrich (genai openai modeParam : Option String)
    (collab : String → EnrichOutcome) (db : List CompanyRec) :
    CompanyEnrichResult :=
  if !(envTruthy genai && envTruthy openai) then
    { db := db, msgs := [.error enrichDisabledMsg], calls := [] }
  else
    let overwrite := enrichOverwrite modeParam
    let candidates := if overwrite then db else db.filter companyFieldMissing
    if candidates.isEmpty then
      { db := db, msgs := [.info "No companies need enrichment."], calls := [] }
    else
      let r := companyEnrichLoop overwrite collab candidates
      { db := db.map (fun c =>
          if overwrite || companyFieldMissing c
          then (companyProcessOne overwrite collab c).1 else c),
        msgs := [.success (companyEnrichMsg r.tally)],
        calls := r.calls }

/-- Result of a `lead_enrich` request: the tallies, flash messages, and the
pks passed to the collaborator (the view itself persists nothing; writes
happen inside the collaborator). -/
structure LeadEnrichResult where
  tally : Tally
  msgs : List Msg
  calls : List String
  deriving DecidableEq

/-- The `lead_enrich` view (leads/views.py lines 330-378). -/
def leadEnrich (genai openai modeParam : Option String)
    (collab : String → LeadEnrichOutcome) (db : List LeadERec) :
    LeadEnrichResult :=
  if !(envTruthy genai && envTruthy openai) then
    { tally := ⟨0, 0, 0⟩, msgs := [.error enrichDisabledMsg], calls := [] }
  else
    let overwrite := enrichOverwrite modeParam
    let candidates := if overwrite then db else db.filter leadFieldMissing
    if candidates.isEmpty then
      { tally := ⟨0, 0, 0⟩, msgs := [.info "No leads need enrichment."], calls := [] }
    else
      let r := leadEnrichLoop collab candidates
      { tally := r.1, msgs := [.success (leadEnrichMsg r.1)], calls := r.2 }

lemma companyEnrichLoop_calls (overwrite : Bool) (collab : String → EnrichOutcome)
    (cs : List CompanyRec) :
    (companyEnrichLoop overwrite collab cs).calls = cs.map (fun c => c.domain) := by
  induction cs with
  | nil => rfl
  | cons c rest ih => simp [companyEnrichLoop, ih]

lemma companyEnrichLoop_records (overwrite : Bool) (collab : String → EnrichOutcome)
    (cs : List CompanyRec) :
    (companyEnrichLoop overwrite collab cs).records =
      cs.map (fun c => (companyProcessOne overwrite collab c).1) := by
  induction cs with
  | nil => rfl
  | cons c rest ih => simp [companyEnrichLoop, ih]

lemma companyEnrichLoop_tally (overwrite : Bool) (collab : String → EnrichOutcome)
    (cs : List CompanyRec) :
    (companyEnrichLoop overwrite collab cs).tally =
      { enriched := cs.countP (fun c => match collab c.domain with
          | .data d => (mergeFields overwrite d companyEnrichFields c.attrs false).2
          | _ => false),
        skipped := cs.countP (fun c => match collab c.domain with
          | .data d => !(mergeFields overwrite d companyEnrichFields c.attrs false).2
          | _ => false),
        errors := cs.countP (fun c => match collab c.domain with
          | .raises => true
          | .empty => true
          | .data _ => false) } := by
  induction cs with
  | nil => rfl
  | cons c rest ih =>
    simp only [companyEnrichLoop, ih, List.countP_cons]
    cases h : collab c.domain with
    | raises => simp [companyProcessOne, h, Tally.add]
    | empty => simp [companyProcessOne, h, Tally.add]
    | data d =>
      cases hr : (mergeFields overwrite d companyEnrichFields c.attrs false).2 <;>
        simp [companyProcessOne, h, hr, Tally.add]

lemma companyEnrichLoop_total (overwrite : Bool) (collab : String → EnrichOutcome)
    (cs : List CompanyRec) :
    (companyEnrichLoop overwrite collab cs).tally.enriched +
      (companyEnrichLoop overwrite collab cs).tally.skipped +
      (companyEnrichLoop overwrite collab cs).tally.errors = cs.length := by
  induction cs with
  | nil => rfl
  | cons c rest ih =>
    simp only [companyEnrichLoop, List.length_cons]
    cases (companyProcessOne overwrite collab c).2 <;>
      simp only [Tally.add] <;> omega

lemma leadEnrichLoop_calls (collab : String → LeadEnrichOutcome) (ls : List LeadERec) :
    (leadEnrichLoop collab ls).2 = ls.map (fun l => l.pk) := by
  induction ls with
  | nil => rfl
  | cons l rest ih => simp [leadEnrichLoop, ih]

lemma leadEnrichLoop_tally (collab : String → LeadEnrichOutcome) (ls : List LeadERec) :
    (leadEnrichLoop collab ls).1 =
      { enriched := ls.countP (fun l => match collab l.pk with
          | .result s => !s
          | _ => false),
        skipped := ls.countP (fun l => match collab l.pk with
          | .result s => s
          | _ => false),
        errors := ls.countP (fun l => match collab l.pk with
          | .raises => true
          | .empty => true
          | .result _ => false) } := by
  induction ls with
  | nil => rfl
  | cons l rest ih =>
    simp only [leadEnrichLoop, ih, List.countP_cons]
    cases h : collab l.pk with
    | raises => simp [leadProcessOne, h, Tally.add]
    | empty => simp [leadProcessOne, h, Tally.add]
    | result s => cases s <;> simp [leadProcessOne, h, Tally.add]

lemma leadEnrichLoop_total (collab : String → LeadEnrichOutcome) (ls : List LeadERec) :
    (leadEnrichLoop collab ls).1.enriched + (leadEnrichLoop collab ls).1.skipped +
      (leadEnrichLoop collab ls).1.errors = ls.length := by
  induction ls with
  | nil => rfl
  | cons l rest ih =>
    simp only [leadEnrichLoop, List.length_cons]
    cases leadProcessOne collab l <;> simp only [Tally.add] <;> omega

/-- A concrete company used to exercise the enrichment loop. -/
def cNoData : CompanyRec := { domain := "acme.com", attrs := fun _ => FieldVal.none }

/-- C2 counterexample — the claim says a record whose collaborator call
returns a falsy/empty result is counted as skipped; on a one-company run
whose collaborator returns an empty result, `company_enrich` counts it as an
error instead (`if not enriched_data: errors += 1`, companies/views.py lines
283-285): the skipped tally is 0 and the error tally is 1. -/
theorem c2_falsy_result_counted_as_error :
    (companyEnrichLoop false (fun _ => EnrichOutcome.empty) [cNoData]).tally.skipped = 0 ∧
    (companyEnrichLoop false (fun _ => EnrichOutcome.empty) [cNoData]).tally.errors = 1 := by
  exact ⟨rfl, rfl⟩

/-- C2 (amended) — In an enrichment run (company or lead), every candidate
is visited exactly once, in order (the collaborator-call log equals the
candidate list, so an exception on record 2 of 3 still processes records 1
and 3); a per-record exception or a falsy/empty collaborator result is
counted as one error and does not stop the loop; a record is counted as
skipped when the collaborator returns a truthy result but the merge writes
no field (companies) or the result's skipped flag is truthy (leads), and as
enriched otherwise; the three tallies always sum to the number of
candidates; and with both credentials present the final flash message of
either view reports the run's tallies. -/
theorem c2_enrich_run_accounting (overwrite : Bool) (g o m : Option String)
    (ccollab : String → EnrichOutcome) (lcollab : String → LeadEnrichOutcome)
    (cs : List CompanyRec) (ls : List LeadERec)
    (hg : envTruthy g = true) (ho : envTruthy o = true) :
    (companyEnrichLoop overwrite ccollab cs).calls = cs.map (fun c => c.domain) ∧
    (companyEnrichLoop overwrite ccollab cs).records =
      cs.map (fun c => (companyProcessOne overwrite ccollab c).1) ∧
    (companyEnrichLoop overwrite ccollab cs).tally =
      { enriched := cs.countP (fun c => match ccollab c.domain with
          | .data d => (mergeFields overwrite d companyEnrichFields c.attrs false).2
          | _ => false),
        skipped := cs.countP (fun c => match ccollab c.domain with
          | .data d => !(mergeFields overwrite d companyEnrichFields c.attrs false).2
          | _ => false),
        errors := cs.countP (fun c => match ccollab c.domain with
          | .raises => true
          | .empty => true
          | .data _ => false) } ∧
    (companyEnrichLoop overwrite ccollab cs).tally.enriched +
      (companyEnrichLoop overwrite ccollab cs).tally.skipped +
      (companyEnrichLoop overwrite ccollab cs).tally.errors = cs.length ∧
    (leadEnrichLoop lcollab ls).2 = ls.map (fun l => l.pk) ∧
    (leadEnrichLoop lcollab ls).1 =
      { enriched := ls.countP (fun l => match lcollab l.pk with
          | .result s => !s
          | _ => false),
        skipped := ls.countP (fun l => match lcollab l.pk with
          | .result s => s
          | _ => false),
        errors := ls.countP (fun l => match lcollab l.pk with
          | .raises => true
          | .empty => true
          | .result _ => false) } ∧
    (leadEnrichLoop lcollab ls).1.enriched + (leadEnrichLoop lcollab ls).1.skipped +
      (leadEnrichLoop lcollab ls).1.errors = ls.length ∧
    (companyEnrich g o m ccollab cs).msgs =
      (if (if enrichOverwrite m then cs else cs.filter companyFieldMissing).isEmpty
       then [Msg.info "No companies need enrichment."]
       else [Msg.success (companyEnrichMsg (companyEnrichLoop (enrichOverwrite m) ccollab
         (if enrichOverwrite m then cs else cs.filter companyFieldMissing)).tally)]) ∧
    (leadEnrich g o m lcollab ls).msgs =
      (if (if enrichOverwrite m then ls else ls.filter leadFieldMissing).isEmpty
       then [Msg.info "No leads need enrichment."]
       else [Msg.success (leadEnrichMsg (leadEnrichLoop lcollab
         (if enrichOverwrite m then ls else ls.filter leadFieldMissing)).1)]) := by
  refine ⟨companyEnrichLoop_calls _ _ _, companyEnrichLoop_records _ _ _,
    companyEnrichLoop_tally _ _ _, companyEnrichLoop_total _ _ _,
    leadEnrichLoop_calls _ _, leadEnrichLoop_tally _ _, leadEnrichLoop_total _ _, ?_, ?_⟩
  · simp only [companyEnrich, hg, ho, Bool.and_self, Bool.not_true, Bool.false_eq_true,
      if_false]
    split <;> split <;> rfl
  · simp only [leadEnrich, hg, ho, Bool.and_self, Bool.not_true, Bool.false_eq_true,
      if_false]
    split <;> split <;> rfl

/-- Witness for C2: the accounting theorem applied to a concrete run — one
company whose collaborator returns an empty result and one lead whose
collaborator raises, with both credentials present and no `mode`
parameter. -/
theorem c2_enrich_run_accounting_witness :
    envTruthy (some "g") = true ∧ envTruthy (some "k") = true ∧
    ((companyEnrichLoop false (fun _ => EnrichOutcome.empty) [cNoData]).calls =
        [cNoData].map (fun c => c.domain) ∧
      (companyEnrichLoop false (fun _ => EnrichOutcome.empty) [cNoData]).records =
        [cNoData].map (fun c =>
          (companyProcessOne false (fun _ => EnrichOutcome.empty) c).1) ∧
      (companyEnrichLoop false (fun _ => EnrichOutcome.empty) [cNoData]).tally =
        { enriched := [cNoData].countP (fun c =>
            match (fun _ => EnrichOutcome.empty : String → EnrichOutcome) c.domain with
            | .data d => (mergeFields false d companyEnrichFields c.attrs false).2
            | _ => false),
          skipped := [cNoData].countP (fun c =>
            match (fun _ => EnrichOutcome.empty : String → EnrichOutcome) c.domain with
            | .data d => !(mergeFields false d companyEnrichFields c.attrs false).2
            | _ => false),
          errors := [cNoData].countP (fun c =>
            match (fun _ => EnrichOutcome.empty : String → EnrichOutcome) c.domain with
            | .raises => true
            | .empty => true
            | .data _ => false) } ∧
      (companyEnrichLoop false (fun _ => EnrichOutcome.empty) [cNoData]).tally.enriched +
        (companyEnrichLoop false (fun _ => EnrichOutcome.empty) [cNoData]).tally.skipped +
        (companyEnrichLoop false (fun _ => EnrichOutcome.empty) [cNoData]).tally.errors =
          [cNoData].length ∧
      (leadEnrichLoop (fun _ => LeadEnrichOutcome.raises) []).2 =
        ([] : List LeadERec).map (fun l => l.pk) ∧
      (leadEnrichLoop (fun _ => LeadEnrichOutcome.raises) []).1 =
        { enriched := ([] : List LeadERec).countP (fun l =>
            match (fun _ => LeadEnrichOutcome.raises : String → LeadEnrichOutcome) l.pk with
            | .result s => !s
            | _ => false),
          skipped := ([] : List LeadERec).countP (fun l =>
            match (fun _ => LeadEnrichOutcome.raises : String → LeadEnrichOutcome) l.pk with
            | .result s => s
            | _ => false),
          errors := ([] : List LeadERec).countP (fun l =>
            match (fun _ => LeadEnrichOutcome.raises : String → LeadEnrichOutcome) l.pk with
            | .raises => true
            | .empty => true
            | .result _ => false) } ∧
      (leadEnrichLoop (fun _ => LeadEnrichOutcome.raises) []).1.enriched +
        (leadEnrichLoop (fun _ => LeadEnrichOutcome.raises) []).1.skipped +
        (leadEnrichLoop (fun _ => LeadEnrichOutcome.raises) []).1.errors =
          ([] : List LeadERec).length ∧
      (companyEnrich (some "g") (some "k") none (fun _ => EnrichOutcome.empty)
          [cNoData]).msgs =
        (if (if enrichOverwrite none then [cNoData]
             else [cNoData].filter companyFieldMissing).isEmpty
         then [Msg.info "No companies need enrichment."]
         else [Msg.success (companyEnrichMsg (companyEnrichLoop (enrichOverwrite none)
           (fun _ => EnrichOutcome.empty)
           (if enrichOverwrite none then [cNoData]
            else [cNoData].filter companyFieldMissing)).tally)]) ∧
      (leadEnrich (some "g") (some "k") none (fun _ => LeadEnrichOutcome.raises)
          []).msgs =
        (if (if enrichOverwrite none then ([] : List LeadERec)
             else ([] : List LeadERec).filter leadFieldMissing).isEmpty
         then [Msg.info "No leads need enrichment."]
         else [Msg.success (leadEnrichMsg (leadEnrichLoop
           (fun _ => LeadEnrichOutcome.raises)
           (if enrichOverwrite none then ([] : List LeadERec)
            else ([] : List LeadERec).filter leadFieldMissing)).1)])) :=
  ⟨rfl, rfl,
    c2_enrich_run_accounting false (some "g") (some "k") none
      (fun _ => EnrichOutcome.empty) (fun _ => LeadEnrichOutcome.raises)
      [cNoData] [] rfl rfl⟩

/-- C8 — Whenever either required credential environment variable is absent
or empty, both enrichment entry points abort immediately: the handler emits
only the disabled-feature error message, the collaborator is never called,
and every company and lead is left unchanged. -/
theorem c8_credential_gate (g o m : Option String)
    (ccollab : String → EnrichOutcome) (lcollab : String → LeadEnrichOutcome)
    (cs : List CompanyRec) (ls : List LeadERec)
    (h : envTruthy g = false ∨ envTruthy o = false) :
    companyEnrich g o m ccollab cs =
      { db := cs, msgs := [.error enrichDisabledMsg], calls := [] } ∧
    leadEnrich g o m lcollab ls =
      { tally := ⟨0, 0, 0⟩, msgs := [.error enrichDisabledMsg], calls := [] } := by
  have hb : (envTruthy g && envTruthy o) = false := by
    rcases h with h | h <;> simp [h]
  constructor
  · simp [companyEnrich, hb]
  · simp [leadEnrich, hb]

/-- Witness for C8: the gate applied with the first credential absent and
the second one set. -/
theorem c8_credential_gate_witness :
    (envTruthy none = false ∨ envTruthy (some "k") = false) ∧
    (companyEnrich none (some "k") (some "all") (fun _ => EnrichOutcome.empty)
        [cNoData] =
      { db := [cNoData], msgs := [.error enrichDisabledMsg], calls := [] } ∧
    leadEnrich none (some "k") (some "all") (fun _ => LeadEnrichOutcome.raises) [] =
      { tally := ⟨0, 0, 0⟩, msgs := [.error enrichDisabledMsg], calls := [] }) :=
  ⟨Or.inl rfl,
    c8_credential_gate none (some "k") (some "all") (fun _ => EnrichOutcome.empty)
      (fun _ => LeadEnrichOutcome.raises) [cNoData] [] (Or.inl rfl)⟩

/-- C9 — In both enrichment entry points, overwrite mode is enabled if and
only if the `mode` request parameter is exactly the string `all`; any other
value — absent or an unrecognized string — makes the handler behave exactly
as in fill mode (`mode=empty`), producing no extra message. -/
theorem c9_mode_selects_overwrite (g o m : Option String)
    (ccollab : String → EnrichOutcome) (lcollab : String → LeadEnrichOutcome)
    (cs : List CompanyRec) (ls : List LeadERec)
    (hm : m ≠ some "all") :
    (∀ m2 : Option String, enrichOverwrite m2 = true ↔ m2 = some "all") ∧
    companyEnrich g o m ccollab cs = companyEnrich g o (some "empty") ccollab cs ∧
    leadEnrich g o m lcollab ls = leadEnrich g o (some "empty") lcollab ls := by
  have hov : enrichOverwrite m = false := by
    cases m with
    | none => rfl
    | some s =>
      have hs : s ≠ "all" := fun h => hm (by rw [h])
      simp [enrichOverwrite, hs]
  refine ⟨?_, ?_, ?_⟩
  · intro m2
    cases m2 with
    | none => simp [enrichOverwrite]
    | some s => simp [enrichOverwrite]
  · simp only [companyEnrich, hov, show enrichOverwrite (some "empty") = false from rfl]
  · simp only [leadEnrich, hov, show enrichOverwrite (some "empty") = false from rfl]

/-- Witness for C9: the mode flag theorem applied to the unrecognized mode
string `weird`. -/
theorem c9_mode_selects_overwrite_witness :
    (some "weird" : Option String) ≠ some "all" ∧
    ((∀ m2 : Option String, enrichOverwrite m2 = true ↔ m2 = some "all") ∧
    companyEnrich (some "g") (some "k") (some "weird")
        (fun _ => EnrichOutcome.empty) [cNoData] =
      companyEnrich (some "g") (some "k") (some "empty")
        (fun _ => EnrichOutcome.empty) [cNoData] ∧
    leadEnrich (some "g") (some "k") (some "weird")
        (fun _ => LeadEnrichOutcome.raises) [] =
      leadEnrich (some "g") (some "k") (some "empty")
        (fun _ => LeadEnrichOutcome.raises) []) :=
  ⟨by decide,
    c9_mode_selects_overwrite (some "g") (some "k") (some "weird")
      (fun _ => EnrichOutcome.empty) (fun _ => LeadEnrichOutcome.raises)
      [cNoData] [] (by decide)⟩

/-- A value in a SQL ORDER BY expression: NULL, a string, or an integer. -/
inductive SortVal
  | nullv
  | str (s : String)
  | int (n : Int)
  deriving DecidableEq

/-- Lowercasing of a string (Python `.lower()` and the SQL `LOWER`
function), written over the character list so that it evaluates by
reduction. -/
def strLower (s : String) : String := ⟨s.data.map Char.toLower⟩

/-- Whitespace trimming of a string (Python `.strip()`), written over the
character list so that it evaluates by reduction. -/
def strTrim (s : String) : String :=
  ⟨((s.data.dropWhile Char.isWhitespace).reverse.dropWhile Char.isWhitespace).reverse⟩

/-- Three-way comparison of characters. -/
def charCmp (a b : Char) : Ordering :=
  if a < b then .lt else if a = b then .eq else .gt

/-- Lexicographic three-way comparison of character lists. -/
def charListCmp : List Char → List Char → Ordering
  | [], [] => .eq
  | [], _ :: _ => .lt
  | _ :: _, [] => .gt
  | a :: as_, b :: bs =>
    match charCmp a b with
    | .eq => charListCmp as_ bs
    | .lt => .lt
    | .gt => .gt

/-- Three-way comparison of strings: the database's lexicographic
collation. -/
def strCmp (a b : String) : Ordering := charListCmp a.data b.data

/-- Three-way comparison of integers. -/
def intCmp (a b : Int) : Ordering :=
  if a < b then .lt else if a = b then .eq else .gt

/-- Comparison of ORDER BY values; NULLs collate together and before
everything else (strings and integers never meet in one column). -/
def SortVal.cmp : SortVal → SortVal → Ordering
  | .nullv, .nullv => .eq
  | .nullv, _ => .lt
  | _, .nullv => .gt
  | .int a, .int b => intCmp a b
  | .str a, .str b => strCmp a b
  | .int _, .str _ => .lt
  | .str _, .int _ => .gt

/-- The SQL `Lower` function: lowercases strings, passes NULL through. -/
def lowerSV : SortVal → SortVal
  | .str s => .str (strLower s)
  | v => v

/-- The SQL `Coalesce` of two values: the first when it is not NULL. -/
def coalesceSV : SortVal → SortVal → SortVal
  | .nullv, b => b
  | a, _ => a

/-- A nullable string column as an ORDER BY value. -/
def optStrSV : Option String → SortVal
  | .none => .nullv
  | .some s => .str s

/-- A nullable integer column as an ORDER BY value. -/
def optIntSV : Option Int → SortVal
  | .none => .nullv
  | .some n => .int n

/-- Lexicographic comparison along a list of ORDER BY expressions, each with
its own descending flag (the `-` prefix of `order_by`). -/
def cmpBy {ρ : Type} : List ((ρ → SortVal) × Bool) → ρ → ρ → Ordering
  | [], _, _ => .eq
  | (f, desc) :: rest, a, b =>
    let o := SortVal.cmp (f a) (f b)
    let od := if desc then o.swap else o
    match od with
    | .eq => cmpBy rest a b
    | .lt => .lt
    | .gt => .gt

/-- Stable insertion of an element into a sorted list. -/
def insertSorted {ρ : Type} (le : ρ → ρ → Bool) (x : ρ) : List ρ → List ρ
  | [] => [x]
  | y :: ys => if le x y then x :: y :: ys else y :: insertSorted le x ys

/-- The database's ORDER BY, modelled as a stable sort. -/
def sortBy {ρ : Type} (le : ρ → ρ → Bool) : List ρ → List ρ
  | [] => []
  | x :: xs => insertSorted le x (sortBy le xs)

/-- A company row as projected by `company_list` (with the `leads_count`
annotation always present). -/
structure CompanyRow where
  company_name : Option String
  domain : String
  industry : Option String
  company_size : Option Int
  leads_count : Nat
  deriving DecidableEq

/-- The sort-key allow-list of `company_list` (companies/views.py line 32). -/
def companyAllowedSortKeys : List String := ["name", "domain", "industry", "size", "leads"]

/-- `_default_dir_for` of `company_list` (line 36-37). -/
def companyDefaultDir (k : String) : String :=
  if k == "size" || k == "leads" then "desc" else "asc"

/-- `sort_key` normalization of `company_list` (lines 16, 33-34): strip,
lowercase, and fall back to `''` outside the allow-list. -/
def companySortKeyOf (sortParam : Option String) : String :=
  let k := strLower (strTrim (sortParam.getD ""))
  if companyAllowedSortKeys.contains k then k else ""

/-- `sort_dir` of `company_list` (lines 17, 40-41): the request value,
overridden by the key's fixed direction whenever a valid key is present. -/
def companySortDirOf (k : String) (dirParam : Option String) : String :=
  if k == "" then strLower (strTrim (dirParam.getD "")) else companyDefaultDir k

/-- The ORDER BY expression list of `company_list` for a sort key and
direction (companies/views.py lines 46-66), including the
`order_by('-company_name')` default. -/
def companyOrderCriteria (k d : String) : List ((CompanyRow → SortVal) × Bool) :=
  let desc := d == "desc"
  if k == "name" then
    [(fun c => lowerSV (coalesceSV (optStrSV c.company_name) (SortVal.str c.domain)), desc),
     (fun c => SortVal.str c.domain, false)]
  else if k == "domain" then
    [(fun c => lowerSV (SortVal.str c.domain), desc)]
  else if k == "industry" then
    [(fun c => lowerSV (coalesceSV (optStrSV c.industry) (SortVal.str "")), desc),
     (fun c => SortVal.str c.domain, false)]
  else if k == "size" then
    [(fun c => coalesceSV (optIntSV c.company_size) (SortVal.int (-1)), desc),
     (fun c => SortVal.str c.domain, false)]
  else if k == "leads" then
    [(fun c => SortVal.int (c.leads_count : Int), desc),
     (fun c => SortVal.str c.domain, false)]
  else
    [(fun c => optStrSV c.company_name, true)]

/-- The ordered record list produced by `company_list` for the given `sort`
and `dir` request parameters. -/
def companyListOrdered (sortParam dirParam : Option String)
    (rows : List CompanyRow) : List CompanyRow :=
  let k := companySortKeyOf sortParam
  let d := companySortDirOf k dirParam
  sortBy (fun a b => !(cmpBy (companyOrderCriteria k d) a b == Ordering.gt)) rows

/-- A lead row as projected by `lead_list` (company fields through the
nullable foreign key). -/
structure LeadRow where
  pdl_first_name : Option String
  pdl_last_name : Option String
  pdl_job_title : Option String
  email : String
  company_name : Option String
  company_domain : Option String
  lead_score : Option Int
  lead_stage : Option String
  deriving DecidableEq

/-- The sort-key allow-list of `lead_list` (leads/views.py line 46). -/
def leadAllowedSortKeys : List String :=
  ["name", "job_title", "email", "company", "score", "stage"]

/-- `_default_dir_for` of `lead_list` (lines 50-51). -/
def leadDefaultDir (k : String) : String :=
  if k == "score" || k == "stage" then "desc" else "asc"

/-- `sort_key` normalization of `lead_list` (lines 18, 47-48). -/
def leadSortKeyOf (sortParam : Option String) : String :=
  let k := strLower (strTrim (sortParam.getD ""))
  if leadAllowedSortKeys.contains k then k else ""

/-- `sort_dir` of `lead_list` (lines 19, 56-57). -/
def leadSortDirOf (k : String) (dirParam : Option String) : String :=
  if k == "" then strLower (strTrim (dirParam.getD "")) else leadDefaultDir k

/-- The `stage_rank` Case expression of the stage sort (leads/views.py lines
94-104); NULL and unknown stages take the default rank -1. -/
def stageRank : Option String → Int
  | .some "low" => 0
  | .some "medium" => 1
  | .some "high" => 2
  | .some "very_high" => 3
  | .some "enterprise" => 4
  | _ => -1

/-- The ORDER BY expression list of `lead_list` for a sort key and direction
(leads/views.py lines 59-104); an invalid key applies no ordering and is
handled in `leadListOrdered`. -/
def leadOrderCriteria (k d : String) : List ((LeadRow → SortVal) × Bool) :=
  let desc := d == "desc"
  if k == "name" then
    [(fun l => lowerSV (coalesceSV (optStrSV l.pdl_first_name) (SortVal.str "")), desc),
     (fun l => lowerSV (coalesceSV (optStrSV l.pdl_last_name) (SortVal.str "")), desc),
     (fun l => SortVal.str l.email, false)]
  else if k == "job_title" then
    [(fun l => lowerSV (coalesceSV (optStrSV l.pdl_job_title) (SortVal.str "")), desc),
     (fun l => SortVal.str l.email, false)]
  else if k == "email" then
    [(fun l => lowerSV (SortVal.str l.email), desc)]
  else if k == "company" then
    [(fun l => lowerSV (coalesceSV (optStrSV l.company_name) (optStrSV l.company_domain)), desc),
     (fun l => SortVal.str l.email, false)]
  else if k == "score" then
    [(fun l => optIntSV l.lead_score, desc),
     (fun l => SortVal.str l.email, false)]
  else if k == "stage" then
    [(fun l => SortVal.int (stageRank l.lead_stage), desc),
     (fun l => SortVal.str l.email, false)]
  else []

/-- The ordered record list produced by `lead_list`: no `order_by` is
applied when no valid sort key is given. -/
def leadListOrdered (sortParam dirParam : Option String)
    (rows : List LeadRow) : List LeadRow :=
  let k := leadSortKeyOf sortParam
  let d := leadSortDirOf k dirParam
  if k == "" then rows
  else sortBy (fun a b => !(cmpBy (leadOrderCriteria k d) a b == Ordering.gt)) rows

/-- C3 — The ordered result of both list views is identical for every value
of the `dir` request parameter (two runs differing only in `dir` produce the
same ordered list), and each sort key's direction is fixed: descending for
companies' size and leads columns and for leads' score and stage columns,
ascending for all the others. -/
theorem c3_dir_parameter_ignored :
    (∀ (sortParam d1 d2 : Option String) (rows : List CompanyRow),
        companyListOrdered sortParam d1 rows = companyListOrdered sortParam d2 rows) ∧
    (∀ (sortParam d1 d2 : Option String) (rows : List LeadRow),
        leadListOrdered sortParam d1 rows = leadListOrdered sortParam d2 rows) ∧
    companyDefaultDir "name" = "asc" ∧ companyDefaultDir "domain" = "asc" ∧
    companyDefaultDir "industry" = "asc" ∧ companyDefaultDir "size" = "desc" ∧
    companyDefaultDir "leads" = "desc" ∧
    leadDefaultDir "name" = "asc" ∧ leadDefaultDir "job_title" = "asc" ∧
    leadDefaultDir "email" = "asc" ∧ leadDefaultDir "company" = "asc" ∧
    leadDefaultDir "score" = "desc" ∧ leadDefaultDir "stage" = "desc" := by
  refine ⟨?_, ?_, rfl, rfl, rfl, rfl, rfl, rfl, rfl, rfl, rfl, rfl, rfl⟩
  · intro sortParam d1 d2 rows
    by_cases hk : companySortKeyOf sortParam = ""
    · simp only [companyListOrdered, hk]
      rfl
    · have hbe : (companySortKeyOf sortParam == "") = false := by
        rw [beq_eq_false_iff_ne]
        exact hk
      simp only [companyListOrdered, companySortDirOf, hbe, Bool.false_eq_true, if_false]
  · intro sortParam d1 d2 rows
    by_cases hk : leadSortKeyOf sortParam = ""
    · simp only [leadListOrdered, hk]
      rfl
    · have hbe : (leadSortKeyOf sortParam == "") = false := by
        rw [beq_eq_false_iff_ne]
        exact hk
      simp only [leadListOrdered, leadSortDirOf, hbe, Bool.false_eq_true, if_false]


lemma charCmp_eq_iff (a b : Char) : charCmp a b = Ordering.eq ↔ a = b := by
  constructor
  · intro h
    by_cases h1 : a < b
    · simp [charCmp, h1] at h
    · by_cases h2 : a = b
      · exact h2
      · simp [charCmp, h1, h2] at h
  · intro h
    subst h
    simp [charCmp]

lemma charListCmp_eq_iff (l1 l2 : List Char) :
    charListCmp l1 l2 = Ordering.eq ↔ l1 = l2 := by
  induction l1 generalizing l2 with
  | nil => cases l2 <;> simp [charListCmp]
  | cons a as_ ih =>
    cases l2 with
    | nil => simp [charListCmp]
    | cons b bs =>
      cases hc : charCmp a b with
      | eq =>
        have hab : a = b := (charCmp_eq_iff a b).mp hc
        subst hab
        simp only [charListCmp, hc]
        simp [ih]
      | lt =>
        simp only [charListCmp, hc]
        constructor
        · intro h
          cases h
        · intro h
          injection h with h1 h2
          subst h1
          have hrefl : charCmp a a = Ordering.eq := (charCmp_eq_iff a a).mpr rfl
          rw [hc] at hrefl
          cases hrefl
      | gt =>
        simp only [charListCmp, hc]
        constructor
        · intro h
          cases h
        · intro h
          injection h with h1 h2
          subst h1
          have hrefl : charCmp a a = Ordering.eq := (charCmp_eq_iff a a).mpr rfl
          rw [hc] at hrefl
          cases hrefl

lemma strCmp_eq_iff (a b : String) : strCmp a b = Ordering.eq ↔ a = b := by
  unfold strCmp
  rw [charListCmp_eq_iff]
  constructor
  · intro h
    exact String.ext h
  · intro h
    rw [h]

lemma sortValCmp_str_eq (a b : String) :
    SortVal.cmp (.str a) (.str b) = Ordering.eq ↔ a = b := by
  simp [SortVal.cmp, strCmp_eq_iff]

lemma cmpBy_cons_eq {ρ : Type} {f : ρ → SortVal} {desc : Bool}
    {rest : List ((ρ → SortVal) × Bool)} {a b : ρ}
    (h : cmpBy ((f, desc) :: rest) a b = .eq) :
    SortVal.cmp (f a) (f b) = .eq ∧ cmpBy rest a b = .eq := by
  cases hc : SortVal.cmp (f a) (f b) <;> cases desc <;>
    simp [cmpBy, hc, Ordering.swap] at h <;> exact ⟨rfl, h⟩

lemma cmpBy_single_false {ρ : Type} (f : ρ → SortVal) (a b : ρ) :
    cmpBy [(f, false)] a b = SortVal.cmp (f a) (f b) := by
  cases hc : SortVal.cmp (f a) (f b) <;> simp [cmpBy, hc]

/-- The fixed-direction comparator `company_list` sorts with when the given
(valid) sort key is requested. -/
def companyCmp (k : String) (a b : CompanyRow) : Ordering :=
  cmpBy (companyOrderCriteria k (companyDefaultDir k)) a b

/-- The fixed-direction comparator `lead_list` sorts with when the given
(valid) sort key is requested. -/
def leadCmp (k : String) (p q : LeadRow) : Ordering :=
  cmpBy (leadOrderCriteria k (leadDefaultDir k)) p q

/-- Two distinct companies whose domains differ only in case. -/
def cDomUpper : CompanyRow :=
  { company_name := some "Acme", domain := "A.com", industry := none,
    company_size := none, leads_count := 0 }

/-- See `cDomUpper`. -/
def cDomLower : CompanyRow :=
  { company_name := some "Acme", domain := "a.com", industry := none,
    company_size := none, leads_count := 0 }

/-- Two distinct leads whose emails differ only in case. -/
def lEmailUpper : LeadRow :=
  { pdl_first_name := none, pdl_last_name := none, pdl_job_title := none,
    email := "A@x.com", company_name := none, company_domain := none,
    lead_score := none, lead_stage := none }

/-- See `lEmailUpper`. -/
def lEmailLower : LeadRow :=
  { pdl_first_name := none, pdl_last_name := none, pdl_job_title := none,
    email := "a@x.com", company_name := none, company_domain := none,
    lead_score := none, lead_stage := none }

/-- C4 counterexample — the `domain` sort of `company_list`
(`order_by('{prefix}domain_sort')`, companies/views.py line 53) and the
`email` sort of `lead_list` (leads/views.py lines 78-83) order by the
lowercased natural key alone, with no natural-key tie-breaker: two distinct
records whose natural keys differ only in case compare equal, so the claimed
natural-key tie-breaker and deterministic total order fail for exactly these
two sort keys. -/
theorem c4_domain_email_sort_lacks_tiebreaker :
    companyCmp "domain" cDomUpper cDomLower = Ordering.eq ∧
    cDomUpper.domain ≠ cDomLower.domain ∧
    leadCmp "email" lEmailUpper lEmailLower = Ordering.eq ∧
    lEmailUpper.email ≠ lEmailLower.email := by
  decide

/-- C4 (amended) — Every allowed sort key of both list views except
companies' `domain` and leads' `email` includes the entity's natural key
(company domain, lead email) as a final ascending tie-breaker, so records
comparing equal have equal natural keys; the `domain` and `email` sorts
order by the lowercased natural key alone, so records compare equal exactly
when their natural keys agree up to case. -/
theorem c4_natural_key_tiebreaker (a b : CompanyRow) (p q : LeadRow) :
    (companyCmp "name" a b = .eq → a.domain = b.domain) ∧
    (companyCmp "industry" a b = .eq → a.domain = b.domain) ∧
    (companyCmp "size" a b = .eq → a.domain = b.domain) ∧
    (companyCmp "leads" a b = .eq → a.domain = b.domain) ∧
    (companyCmp "domain" a b = .eq ↔ strLower a.domain = strLower b.domain) ∧
    (leadCmp "name" p q = .eq → p.email = q.email) ∧
    (leadCmp "job_title" p q = .eq → p.email = q.email) ∧
    (leadCmp "company" p q = .eq → p.email = q.email) ∧
    (leadCmp "score" p q = .eq → p.email = q.email) ∧
    (leadCmp "stage" p q = .eq → p.email = q.email) ∧
    (leadCmp "email" p q = .eq ↔ strLower p.email = strLower q.email) := by
  refine ⟨?_, ?_, ?_, ?_, ?_, ?_, ?_, ?_, ?_, ?_, ?_⟩
  · intro h
    rcases cmpBy_cons_eq h with ⟨-, h2⟩
    rw [cmpBy_single_false] at h2
    exact (sortValCmp_str_eq _ _).mp h2
  · intro h
    rcases cmpBy_cons_eq h with ⟨-, h2⟩
    rw [cmpBy_single_false] at h2
    exact (sortValCmp_str_eq _ _).mp h2
  · intro h
    rcases cmpBy_cons_eq h with ⟨-, h2⟩
    rw [cmpBy_single_false] at h2
    exact (sortValCmp_str_eq _ _).mp h2
  · intro h
    rcases cmpBy_cons_eq h with ⟨-, h2⟩
    rw [cmpBy_single_false] at h2
    exact (sortValCmp_str_eq _ _).mp h2
  · have e : companyCmp "domain" a b =
        SortVal.cmp (lowerSV (SortVal.str a.domain)) (lowerSV (SortVal.str b.domain)) :=
      cmpBy_single_false (fun c : CompanyRow => lowerSV (SortVal.str c.domain)) a b
    rw [e]
    simp only [lowerSV]
    exact sortValCmp_str_eq _ _
  · intro h
    rcases cmpBy_cons_eq h with ⟨-, h2⟩
    rcases cmpBy_cons_eq h2 with ⟨-, h3⟩
    rw [cmpBy_single_false] at h3
    exact (sortValCmp_str_eq _ _).mp h3
  · intro h
    rcases cmpBy_cons_eq h with ⟨-, h2⟩
    rw [cmpBy_single_false] at h2
    exact (sortValCmp_str_eq _ _).mp h2
  · intro h
    rcases cmpBy_cons_eq h with ⟨-, h2⟩
    rw [cmpBy_single_false] at h2
    exact (sortValCmp_str_eq _ _).mp h2
  · intro h
    rcases cmpBy_cons_eq h with ⟨-, h2⟩
    rw [cmpBy_single_false] at h2
    exact (sortValCmp_str_eq _ _).mp h2
  · intro h
    rcases cmpBy_cons_eq h with ⟨-, h2⟩
    rw [cmpBy_single_false] at h2
    exact (sortValCmp_str_eq _ _).mp h2
  · have e : leadCmp "email" p q =
        SortVal.cmp (lowerSV (SortVal.str p.email)) (lowerSV (SortVal.str q.email)) :=
      cmpBy_single_false (fun l : LeadRow => lowerSV (SortVal.str l.email)) p q
    rw [e]
    simp only [lowerSV]
    exact sortValCmp_str_eq _ _

/-- Witness for C4: the tie-breaker theorem applied to concrete records
whose comparisons evaluate to `eq`. -/
theorem c4_natural_key_tiebreaker_witness :
    companyCmp "name" cDomLower cDomLower = Ordering.eq ∧
    cDomLower.domain = cDomLower.domain ∧
    leadCmp "score" lEmailLower lEmailLower = Ordering.eq ∧
    lEmailLower.email = lEmailLower.email := by
  have h := c4_natural_key_tiebreaker cDomLower cDomLower lEmailLower lEmailLower
  exact ⟨by decide, h.1 (by decide), by decide,
    h.2.2.2.2.2.2.2.2.1 (by decide)⟩

/-- The `page` request parameter as received by `Paginator.get_page`: the
views pass `page_number or 1`, so an absent/blank parameter becomes the
integer 1, a non-integer string stays non-integer, and a numeric string
becomes its integer value. -/
inductive PageParam
  | absent
  | notAnInt
  | num (n : Int)
  deriving DecidableEq

/-- `Paginator.num_pages` of Django (orphans 0, empty first page allowed):
`ceil(max(1, count) / per_page)`. -/
def paginatorNumPages (count perPage : Nat) : Nat :=
  (max 1 count + perPage - 1) / perPage

/-- `Paginator.get_page` of Django, as called by both list views with
`per_page = 10` (companies/views.py lines 69-70, leads/views.py lines
116-117): a non-integer page falls back to page 1; a page below 1 or beyond
the last raises `EmptyPage`, which `get_page` turns into the LAST page. -/
def paginatorGetPage (count perPage : Nat) (p : PageParam) : Nat :=
  let np := paginatorNumPages count perPage
  match p with
  | .absent => 1
  | .notAnInt => 1
  | .num n => if n < 1 then np else if (np : Int) < n then np else n.toNat

/-- The records of one page: rows `(pageNum - 1) * perPage` up to
`pageNum * perPage` of the ordered list. -/
def pageSlice {ρ : Type} (perPage pageNum : Nat) (rows : List ρ) : List ρ :=
  (rows.drop ((pageNum - 1) * perPage)).take perPage

/-- The page of companies rendered by `company_list` for the given request
parameters. -/
def companyListPage (sortParam dirParam : Option String) (pageParam : PageParam)
    (rows : List CompanyRow) : List CompanyRow :=
  let ordered := companyListOrdered sortParam dirParam rows
  pageSlice 10 (paginatorGetPage ordered.length 10 pageParam) ordered

/-- The page of leads rendered by `lead_list` for the given request
parameters. -/
def leadListPage (sortParam dirParam : Option String) (pageParam : PageParam)
    (rows : List LeadRow) : List LeadRow :=
  let ordered := leadListOrdered sortParam dirParam rows
  pageSlice 10 (paginatorGetPage ordered.length 10 pageParam) ordered

lemma paginatorNumPages_pos (count : Nat) : 1 ≤ paginatorNumPages count 10 := by
  unfold paginatorNumPages
  omega

/-- A company row holding only a domain, used to exercise pagination. -/
def cRowOf (d : String) : CompanyRow :=
  { company_name := none, domain := d, industry := none, company_size := none,
    leads_count := 0 }

/-- Eleven companies: two pages of ten and one. -/
def cElevenRows : List CompanyRow :=
  (["d01", "d02", "d03", "d04", "d05", "d06", "d07", "d08", "d09", "d10",
    "d11"]).map cRowOf

/-- C5 counterexample — the claim says page 0 or a negative page returns the
first page; `Paginator.get_page` turns every `EmptyPage` error — raised both
for pages beyond the last and for pages below 1 — into the LAST page, so on
eleven records page 0 yields page 2 (one record), not page 1 (ten
records). -/
theorem c5_page_zero_returns_last_page :
    paginatorGetPage 11 10 (PageParam.num 0) = 2 ∧
    paginatorGetPage 11 10 (PageParam.num (-3)) = 2 ∧
    companyListPage none none (PageParam.num 0) cElevenRows = [cRowOf "d11"] ∧
    companyListPage none none (PageParam.num 1) cElevenRows ≠
      companyListPage none none (PageParam.num 0) cElevenRows := by
  decide

/-- C5 (amended) — Both list views paginate with a fixed page size of 10
and an out-of-range `page` parameter clamps instead of erroring, but always
to the LAST page: a page beyond the last and also page 0 or a negative page
return the last page, while an absent or non-integer page returns the first
page; an in-range page is honoured, the resulting page number is always
within bounds, and a rendered page never holds more than 10 records. -/
theorem c5_pagination_clamps (count : Nat) (n : Int) (p : PageParam)
    (sortParam dirParam : Option String)
    (crows : List CompanyRow) (lrows : List LeadRow)
    (hn : n < 1 ∨ (paginatorNumPages count 10 : Int) < n) :
    paginatorGetPage count 10 (.num n) = paginatorNumPages count 10 ∧
    paginatorGetPage count 10 .absent = 1 ∧
    paginatorGetPage count 10 .notAnInt = 1 ∧
    (∀ m : Int, 1 ≤ m → m ≤ (paginatorNumPages count 10 : Int) →
      paginatorGetPage count 10 (.num m) = m.toNat) ∧
    1 ≤ paginatorGetPage count 10 p ∧
    paginatorGetPage count 10 p ≤ paginatorNumPages count 10 ∧
    (companyListPage sortParam dirParam p crows).length ≤ 10 ∧
    (leadListPage sortParam dirParam p lrows).length ≤ 10 := by
  have hp := paginatorNumPages_pos count
  refine ⟨?_, rfl, rfl, ?_, ?_, ?_, ?_, ?_⟩
  · simp only [paginatorGetPage]
    rcases hn with hn | hn
    · rw [if_pos hn]
    · rw [if_neg (by omega), if_pos hn]
  · intro m h1 h2
    simp only [paginatorGetPage]
    rw [if_neg (by omega), if_neg (by omega)]
  · cases p with
    | absent => exact le_refl 1
    | notAnInt => exact le_refl 1
    | num k =>
      simp only [paginatorGetPage]
      split
      · exact hp
      · split
        · exact hp
        · rename_i hk1 hk2
          omega
  · cases p with
    | absent => exact hp
    | notAnInt => exact hp
    | num k =>
      simp only [paginatorGetPage]
      split
      · exact le_refl _
      · split
        · exact le_refl _
        · rename_i hk1 hk2
          omega
  · simp only [companyListPage, pageSlice]
    rw [List.length_take]
    exact min_le_left _ _
  · simp only [leadListPage, pageSlice]
    rw [List.length_take]
    exact min_le_left _ _

/-- Witness for C5: the clamping theorem applied to 25 records and the
out-of-range page 0. -/
theorem c5_pagination_clamps_witness :
    ((0 : Int) < 1 ∨ (paginatorNumPages 25 10 : Int) < 0) ∧
    (paginatorGetPage 25 10 (.num 0) = paginatorNumPages 25 10 ∧
    paginatorGetPage 25 10 .absent = 1 ∧
    paginatorGetPage 25 10 .notAnInt = 1 ∧
    (∀ m : Int, 1 ≤ m → m ≤ (paginatorNumPages 25 10 : Int) →
      paginatorGetPage 25 10 (.num m) = m.toNat) ∧
    1 ≤ paginatorGetPage 25 10 (PageParam.num 99) ∧
    paginatorGetPage 25 10 (PageParam.num 99) ≤ paginatorNumPages 25 10 ∧
    (companyListPage none none (PageParam.num 99) []).length ≤ 10 ∧
    (leadListPage none none (PageParam.num 99) []).length ≤ 10) :=
  ⟨Or.inl (by decide),
    c5_pagination_clamps 25 0 (PageParam.num 99) none none [] []
      (Or.inl (by decide))⟩

/-- A lead as seen by the bulk actions: primary key, email, and the two
name fields passed to the mailing-list sync. -/
structure MLead where
  pk : String
  email : String
  pdl_first_name : Option String
  pdl_last_name : Option String
  deriving DecidableEq

/-- The lead/tag state the bulk actions read and write: the lead table, the
tag table (tags keyed by their unique name), and the many-to-many
association as (lead pk, tag name) pairs. -/
structure TagDB where
  leads : List MLead
  tagNames : List String
  assoc : List (String × String)
  deriving DecidableEq

/-- `lead.tags.add(tag)` — the many-to-many add, a no-op when the
association already exists. -/
def m2mAdd (assoc : List (String × String)) (pk t : String) :
    List (String × String) :=
  if (pk, t) ∈ assoc then assoc else assoc ++ [(pk, t)]

/-- The post-validation body of `bulk_apply_tag` (leads/views.py lines
229-238): get-or-create the tag, loop over the leads matching the selected
pks adding the association and counting, and flash the count. -/
def bulkApplyTagCore (db : TagDB) (ids : List String) (t : String) :
    TagDB × List Msg :=
  let tagNames2 := if t ∈ db.tagNames then db.tagNames else db.tagNames ++ [t]
  let matched := db.leads.filter (fun l => ids.contains l.pk)
  let assoc2 := matched.foldl (fun a l => m2mAdd a l.pk t) db.assoc
  ({ db with tagNames := tagNames2, assoc := assoc2 },
   [.success ("Applied tag \"" ++ t ++ "\" to " ++ toString matched.length ++
     " lead(s).")])

/-- The `bulk_apply_tag` view (leads/views.py lines 214-238): reject an
empty selection or a blank tag name, then normalize the tag name
(`tag_name.strip().lower()` after the initial strip) and run the loop. -/
def bulkApplyTag (db : TagDB) (ids : List String) (nameParam : Option String) :
    TagDB × List Msg :=
  let tag_name := strTrim (nameParam.getD "")
  if ids.isEmpty then (db, [.error "No leads selected."])
  else if tag_name = "" then (db, [.error "Tag name is required."])
  else bulkApplyTagCore db ids (strLower (strTrim tag_name))

lemma mem_m2mAdd (a : List (String × String)) (pk t : String) :
    (pk, t) ∈ m2mAdd a pk t := by
  unfold m2mAdd
  split
  · assumption
  · exact List.mem_append_right _ (List.mem_singleton.mpr rfl)

lemma m2mAdd_mono {a : List (String × String)} {x : String × String}
    (pk t : String) (h : x ∈ a) : x ∈ m2mAdd a pk t := by
  unfold m2mAdd
  split
  · exact h
  · exact List.mem_append_left _ h

lemma m2mAdd_of_mem {a : List (String × String)} {pk t : String}
    (h : (pk, t) ∈ a) : m2mAdd a pk t = a := by
  unfold m2mAdd
  rw [if_pos h]

lemma mem_m2mAdd_cases {a : List (String × String)} {pk t : String}
    {x : String × String} (h : x ∈ m2mAdd a pk t) : x ∈ a ∨ x = (pk, t) := by
  unfold m2mAdd at h
  split at h
  · exact Or.inl h
  · rcases List.mem_append.mp h with h | h
    · exact Or.inl h
    · exact Or.inr (List.mem_singleton.mp h)

lemma foldl_m2mAdd_mono (ls : List MLead) (t : String)
    {a : List (String × String)} {x : String × String} (h : x ∈ a) :
    x ∈ ls.foldl (fun acc l => m2mAdd acc l.pk t) a := by
  induction ls generalizing a with
  | nil => exact h
  | cons y ys ih => exact ih (m2mAdd_mono _ _ h)

lemma mem_foldl_m2mAdd (ls : List MLead) (t : String)
    (a : List (String × String)) {l : MLead} (hl : l ∈ ls) :
    (l.pk, t) ∈ ls.foldl (fun acc x => m2mAdd acc x.pk t) a := by
  induction ls generalizing a with
  | nil => cases hl
  | cons y ys ih =>
    simp only [List.foldl_cons]
    rcases List.mem_cons.mp hl with h | h
    · subst h
      exact foldl_m2mAdd_mono ys t (mem_m2mAdd a l.pk t)
    · exact ih _ h

lemma mem_foldl_m2mAdd_cases (ls : List MLead) (t : String)
    {a : List (String × String)} {x : String × String}
    (h : x ∈ ls.foldl (fun acc l => m2mAdd acc l.pk t) a) :
    x ∈ a ∨ ∃ l ∈ ls, x = (l.pk, t) := by
  induction ls generalizing a with
  | nil => exact Or.inl h
  | cons y ys ih =>
    simp only [List.foldl_cons] at h
    rcases ih h with h2 | ⟨l, hl, hx⟩
    · rcases mem_m2mAdd_cases h2 with h3 | h3
      · exact Or.inl h3
      · exact Or.inr ⟨y, List.mem_cons_self y ys, h3⟩
    · exact Or.inr ⟨l, List.mem_cons_of_mem y hl, hx⟩

lemma count_m2mAdd_le_one (a : List (String × String)) (pk t : String)
    (p : String × String) (h : a.count p ≤ 1) : (m2mAdd a pk t).count p ≤ 1 := by
  unfold m2mAdd
  split
  · exact h
  · rename_i hmem
    rw [List.count_append]
    by_cases hp : p = (pk, t)
    · subst hp
      have h0 : a.count (pk, t) = 0 := List.count_eq_zero.mpr hmem
      have h1 : List.count (pk, t) [(pk, t)] = 1 := by simp
      omega
    · have h0 : List.count p [(pk, t)] = 0 := by
        simp [List.count_cons, hp]
      omega

lemma foldl_count_le_one (ls : List MLead) (t : String)
    (a : List (String × String)) (p : String × String) (h : a.count p ≤ 1) :
    (ls.foldl (fun acc l => m2mAdd acc l.pk t) a).count p ≤ 1 := by
  induction ls generalizing a with
  | nil => exact h
  | cons y ys ih =>
    simp only [List.foldl_cons]
    exact ih _ (count_m2mAdd_le_one a y.pk t p h)

lemma foldl_m2mAdd_id (ls : List MLead) (t : String)
    (a : List (String × String)) (h : ∀ l ∈ ls, (l.pk, t) ∈ a) :
    ls.foldl (fun acc l => m2mAdd acc l.pk t) a = a := by
  induction ls with
  | nil => rfl
  | cons y ys ih =>
    simp only [List.foldl_cons]
    rw [m2mAdd_of_mem (h y (List.mem_cons_self y ys))]
    exact ih (fun l hl => h l (List.mem_cons_of_mem y hl))

lemma bulkApplyTagCore_leads (db : TagDB) (ids : List String) (t : String) :
    (bulkApplyTagCore db ids t).1.leads = db.leads := rfl

lemma bulkApplyTagCore_assoc (db : TagDB) (ids : List String) (t : String) :
    (bulkApplyTagCore db ids t).1.assoc =
      (db.leads.filter (fun l => ids.contains l.pk)).foldl
        (fun a l => m2mAdd a l.pk t) db.assoc := rfl

lemma bulkApplyTagCore_tagNames (db : TagDB) (ids : List String) (t : String) :
    (bulkApplyTagCore db ids t).1.tagNames =
      if t ∈ db.tagNames then db.tagNames else db.tagNames ++ [t] := rfl

lemma bulkApplyTagCore_msgs (db : TagDB) (ids : List String) (t : String) :
    (bulkApplyTagCore db ids t).2 =
      [.success ("Applied tag \"" ++ t ++ "\" to " ++
        toString (db.leads.filter (fun l => ids.contains l.pk)).length ++
        " lead(s).")] := rfl

lemma bulkApplyTagCore_tag_mem (db : TagDB) (ids : List String) (t : String) :
    t ∈ (bulkApplyTagCore db ids t).1.tagNames := by
  rw [bulkApplyTagCore_tagNames]
  split
  · assumption
  · exact List.mem_append_right _ (List.mem_singleton.mpr rfl)

lemma nodup_count_le_one {l : List (String × String)} (h : l.Nodup)
    (p : String × String) : l.count p ≤ 1 := by
  induction l with
  | nil => simp
  | cons a as_ ih =>
    rcases List.nodup_cons.mp h with ⟨ha, hnd⟩
    rw [List.count_cons]
    by_cases hp : p = a
    · subst hp
      have h0 : as_.count p = 0 := List.count_eq_zero.mpr ha
      simp [h0]
    · have hb : (a == p) = false := by
        rw [beq_eq_false_iff_ne]
        exact fun hh => hp hh.symm
      simp only [hb, Bool.false_eq_true, if_false]
      have := ih hnd
      omega

lemma TagDB.ext' {x y : TagDB} (h1 : x.leads = y.leads)
    (h2 : x.tagNames = y.tagNames) (h3 : x.assoc = y.assoc) : x = y := by
  cases x
  cases y
  simp_all

lemma bulkApplyTagCore_idem (db : TagDB) (ids : List String) (t : String) :
    bulkApplyTagCore (bulkApplyTagCore db ids t).1 ids t =
      bulkApplyTagCore db ids t := by
  have hmem := bulkApplyTagCore_tag_mem db ids t
  have hassoc : ∀ l ∈ db.leads.filter (fun l => ids.contains l.pk),
      (l.pk, t) ∈ (bulkApplyTagCore db ids t).1.assoc := by
    intro l hl
    rw [bulkApplyTagCore_assoc]
    exact mem_foldl_m2mAdd _ t _ hl
  refine Prod.ext ?_ ?_
  · refine TagDB.ext' ?_ ?_ ?_
    · rw [bulkApplyTagCore_leads, bulkApplyTagCore_leads]
    · rw [bulkApplyTagCore_tagNames, if_pos hmem]
    · rw [bulkApplyTagCore_assoc, bulkApplyTagCore_leads]
      exact foldl_m2mAdd_id _ _ _ hassoc
  · rw [bulkApplyTagCore_msgs, bulkApplyTagCore_msgs, bulkApplyTagCore_leads]

/-- C6 — For a non-empty selection and a tag name that is non-blank after
trimming, `bulk_apply_tag` normalizes the name by trimming and lowercasing,
gets-or-creates that tag, attaches it to every selected lead that exists,
reports the number of matched leads, and is idempotent: on a duplicate-free
association table each matched lead ends with exactly one association for
the tag, and applying the same request a second time returns the identical
state and message. -/
theorem c6_bulk_tag_apply (db : TagDB) (ids : List String)
    (nameParam : Option String)
    (hids : ids.isEmpty = false)
    (hname : strTrim (nameParam.getD "") ≠ "")
    (hnd : db.assoc.Nodup) :
    strLower (strTrim (strTrim (nameParam.getD ""))) ∈
      (bulkApplyTag db ids nameParam).1.tagNames ∧
    (∀ l ∈ db.leads.filter (fun l => ids.contains l.pk),
      (l.pk, strLower (strTrim (strTrim (nameParam.getD "")))) ∈
        (bulkApplyTag db ids nameParam).1.assoc) ∧
    (∀ l ∈ db.leads.filter (fun l => ids.contains l.pk),
      (bulkApplyTag db ids nameParam).1.assoc.count
        (l.pk, strLower (strTrim (strTrim (nameParam.getD "")))) = 1) ∧
    (bulkApplyTag db ids nameParam).2 =
      [.success ("Applied tag \"" ++ strLower (strTrim (strTrim (nameParam.getD ""))) ++
        "\" to " ++ toString (db.leads.filter (fun l => ids.contains l.pk)).length ++
        " lead(s).")] ∧
    bulkApplyTag (bulkApplyTag db ids nameParam).1 ids nameParam =
      bulkApplyTag db ids nameParam := by
  have hform : bulkApplyTag db ids nameParam =
      bulkApplyTagCore db ids (strLower (strTrim (strTrim (nameParam.getD "")))) := by
    simp only [bulkApplyTag]
    rw [if_neg (by simp [hids]), if_neg hname]
  have hform2 : bulkApplyTag (bulkApplyTagCore db ids
        (strLower (strTrim (strTrim (nameParam.getD ""))))).1 ids nameParam =
      bulkApplyTagCore (bulkApplyTagCore db ids
        (strLower (strTrim (strTrim (nameParam.getD ""))))).1 ids
        (strLower (strTrim (strTrim (nameParam.getD "")))) := by
    simp only [bulkApplyTag]
    rw [if_neg (by simp [hids]), if_neg hname]
  refine ⟨?_, ?_, ?_, ?_, ?_⟩
  · rw [hform]
    exact bulkApplyTagCore_tag_mem db ids _
  · intro l hl
    rw [hform, bulkApplyTagCore_assoc]
    exact mem_foldl_m2mAdd _ _ _ hl
  · intro l hl
    rw [hform, bulkApplyTagCore_assoc]
    have hle := foldl_count_le_one (db.leads.filter (fun l => ids.contains l.pk))
      (strLower (strTrim (strTrim (nameParam.getD "")))) db.assoc
      (l.pk, strLower (strTrim (strTrim (nameParam.getD ""))))
      (nodup_count_le_one hnd _)
    have hpos := mem_foldl_m2mAdd (db.leads.filter (fun l => ids.contains l.pk))
      (strLower (strTrim (strTrim (nameParam.getD "")))) db.assoc hl
    have hcount := List.count_pos_iff.mpr hpos
    omega
  · rw [hform, bulkApplyTagCore_msgs]
  · rw [hform, hform2]
    exact bulkApplyTagCore_idem db ids _

/-- C10 — `bulk_apply_tag` reports the number of selected ids that match an
existing lead: every new association comes from a matched lead, ids matching
no lead are silently ignored, and a non-empty selection matching no lead
still flashes success with a count of 0. -/
theorem c10_count_is_matched_leads (db : TagDB) (ids : List String)
    (nameParam : Option String)
    (hids : ids.isEmpty = false)
    (hname : strTrim (nameParam.getD "") ≠ "") :
    (bulkApplyTag db ids nameParam).2 =
      [.success ("Applied tag \"" ++ strLower (strTrim (strTrim (nameParam.getD ""))) ++
        "\" to " ++ toString (db.leads.filter (fun l => ids.contains l.pk)).length ++
        " lead(s).")] ∧
    (∀ x ∈ (bulkApplyTag db ids nameParam).1.assoc,
      x ∈ db.assoc ∨ ∃ l ∈ db.leads.filter (fun l => ids.contains l.pk),
        x = (l.pk, strLower (strTrim (strTrim (nameParam.getD ""))))) ∧
    (db.leads.filter (fun l => ids.contains l.pk) = [] →
      (bulkApplyTag db ids nameParam).2 =
        [.success ("Applied tag \"" ++ strLower (strTrim (strTrim (nameParam.getD ""))) ++
          "\" to " ++ toString (0 : Nat) ++ " lead(s).")]) := by
  have hform : bulkApplyTag db ids nameParam =
      bulkApplyTagCore db ids (strLower (strTrim (strTrim (nameParam.getD "")))) := by
    simp only [bulkApplyTag]
    rw [if_neg (by simp [hids]), if_neg hname]
  refine ⟨?_, ?_, ?_⟩
  · rw [hform, bulkApplyTagCore_msgs]
  · intro x hx
    rw [hform, bulkApplyTagCore_assoc] at hx
    exact mem_foldl_m2mAdd_cases _ _ hx
  · intro hempty
    rw [hform, bulkApplyTagCore_msgs, hempty]
    rfl

/-- A concrete lead for the bulk-tag witnesses. -/
def wLeadA : MLead :=
  { pk := "1", email := "a@x.com", pdl_first_name := none, pdl_last_name := none }

/-- A concrete one-lead state for the bulk-tag witnesses. -/
def wTagDB : TagDB := { leads := [wLeadA], tagNames := [], assoc := [] }

/-- Witness for C6: applying the tag name `"  VIP  "` to the one selected
lead attaches the tag `vip` exactly once, and re-applying changes
nothing. -/
theorem c6_bulk_tag_apply_witness :
    "vip" ∈ (bulkApplyTag wTagDB ["1"] (some "  VIP  ")).1.tagNames ∧
    ("1", "vip") ∈ (bulkApplyTag wTagDB ["1"] (some "  VIP  ")).1.assoc ∧
    (bulkApplyTag wTagDB ["1"] (some "  VIP  ")).1.assoc.count ("1", "vip") = 1 ∧
    bulkApplyTag (bulkApplyTag wTagDB ["1"] (some "  VIP  ")).1 ["1"]
        (some "  VIP  ") =
      bulkApplyTag wTagDB ["1"] (some "  VIP  ") := by
  have h := c6_bulk_tag_apply wTagDB ["1"] (some "  VIP  ") (by decide) (by decide)
    List.nodup_nil
  exact ⟨h.1, h.2.1 wLeadA (by decide), h.2.2.1 wLeadA (by decide), h.2.2.2.2⟩

/-- Witness for C10: a non-empty selection matching no lead still reports
success with a count of 0. -/
theorem c10_count_is_matched_leads_witness :
    (bulkApplyTag wTagDB ["2"] (some "  VIP  ")).2 =
      [Msg.success "Applied tag \"vip\" to 0 lead(s)."] := by
  have h := (c10_count_is_matched_leads wTagDB ["2"] (some "  VIP  ")
    (by decide) (by decide)).2.2 (by decide)
  exact h

/-- One call to the mailing-list sync collaborator: the arguments
`send_to_mailchimp` and `send_tag_to_mailchimp` pass for one lead. -/
structure SyncCall where
  email : String
  first_name : Option String
  last_name : Option String
  tag_names : List String
  deriving DecidableEq

/-- `lead.tags.values_list('name', flat=True)` — the names of a lead's tags
read from the association table. -/
def leadTagNames (db : TagDB) (l : MLead) : List String :=
  (db.assoc.filter (fun x => x.1 == l.pk)).map (fun x => x.2)

/-- Modelled from the spec: `add_lead_to_mailchimp` lives in
src/leads/mailchimp_utils.py, which is not provided.  Per the spec the sync
collaborator takes email, first/last name and tag names and returns a
result; "result contains an 'error' key on failure", so it is total and
failures are represented in the result rather than raised.  A collaborator
is therefore a total function `SyncCall → Bool` returning whether the
result contains an `'error'` key.  `syncLoop` is the shared tally loop of
both sync views (leads/views.py lines 193-205 and 258-268): per call,
`'error' in result` increments `failed`, anything else increments
`success`. -/
def syncLoop (collab : SyncCall → Bool) : List SyncCall → Nat × Nat
  | [] => (0, 0)
  | c :: rest =>
    let r := syncLoop collab rest
    if collab c then (r.1, r.2 + 1) else (r.1 + 1, r.2)

/-- The calls `send_to_mailchimp` makes: one per selected lead that exists,
with the lead's own tag names. -/
def mcSelectionCalls (db : TagDB) (ids : List String) : List SyncCall :=
  (db.leads.filter (fun l => ids.contains l.pk)).map
    (fun l => { email := l.email, first_name := l.pdl_first_name,
                last_name := l.pdl_last_name, tag_names := leadTagNames db l })

/-- The calls `send_tag_to_mailchimp` makes: one per lead carrying the tag,
with just that tag's name. -/
def mcTagCalls (db : TagDB) (tid : String) : List SyncCall :=
  (db.leads.filter (fun l => db.assoc.contains (l.pk, tid))).map
    (fun l => { email := l.email, first_name := l.pdl_first_name,
                last_name := l.pdl_last_name, tag_names := [tid] })

/-- Outcome of a `send_to_mailchimp` / `send_tag_to_mailchimp` request. -/
structure SyncResult where
  success : Nat
  failed : Nat
  msgs : List Msg
  calls : List SyncCall
  deriving DecidableEq

/-- The `send_to_mailchimp` view (leads/views.py lines 184-211): reject an
empty selection, then sync every matched lead and flash each non-zero
tally. -/
def sendToMailchimp (collab : SyncCall → Bool) (db : TagDB)
    (ids : List String) : SyncResult :=
  if ids.isEmpty then
    { success := 0, failed := 0, msgs := [.error "No leads selected."], calls := [] }
  else
    let calls := mcSelectionCalls db ids
    let t := syncLoop collab calls
    { success := t.1, failed := t.2,
      msgs :=
        (if t.1 ≠ 0 then [Msg.success (toString t.1 ++ " leads sent to Mailchimp.")]
         else []) ++
        (if t.2 ≠ 0 then [Msg.error (toString t.2 ++ " leads failed to send.")]
         else []),
      calls := calls }

/-- Outcome of `send_tag_to_mailchimp`: `get_object_or_404` may answer with
a not-found response. -/
inductive SyncOutcome
  | notFound
  | done (r : SyncResult)
  deriving DecidableEq

/-- The `send_tag_to_mailchimp` view (leads/views.py lines 241-275), with
tags keyed by their unique name: reject a missing tag id, 404 on an unknown
tag, report when no lead carries the tag, else sync every carrying lead and
flash each non-zero tally. -/
def sendTagToMailchimp (collab : SyncCall → Bool) (db : TagDB)
    (tagIdParam : Option String) : SyncOutcome :=
  let tid := tagIdParam.getD ""
  if tid = "" then
    .done { success := 0, failed := 0, msgs := [.error "Please choose a tag."],
            calls := [] }
  else if !(db.tagNames.contains tid) then .notFound
  else
    let targets := db.leads.filter (fun l => db.assoc.contains (l.pk, tid))
    if targets.isEmpty then
      .done { success := 0, failed := 0,
              msgs := [.info ("No leads found with tag \"" ++ tid ++ "\".")],
              calls := [] }
    else
      let calls := mcTagCalls db tid
      let t := syncLoop collab calls
      .done { success := t.1, failed := t.2,
              msgs :=
                (if t.1 ≠ 0 then
                  [Msg.success (toString t.1 ++ " tagged lead(s) sent to Mailchimp (tag: " ++ tid ++ ").")]
                 else []) ++
                (if t.2 ≠ 0 then
                  [Msg.error (toString t.2 ++ " tagged lead(s) failed to send to Mailchimp.")]
                 else []),
              calls := calls }

lemma syncLoop_failed (collab : SyncCall → Bool) (cs : List SyncCall) :
    (syncLoop collab cs).2 = cs.countP collab := by
  induction cs with
  | nil => rfl
  | cons c rest ih =>
    simp only [syncLoop, List.countP_cons]
    cases h : collab c <;> simp [h, ih]

lemma syncLoop_success (collab : SyncCall → Bool) (cs : List SyncCall) :
    (syncLoop collab cs).1 = cs.countP (fun c => !(collab c)) := by
  induction cs with
  | nil => rfl
  | cons c rest ih =>
    simp only [syncLoop, List.countP_cons]
    cases h : collab c <;> simp [h, ih]

lemma syncLoop_sum (collab : SyncCall → Bool) (cs : List SyncCall) :
    (syncLoop collab cs).1 + (syncLoop collab cs).2 = cs.length := by
  induction cs with
  | nil => rfl
  | cons c rest ih =>
    simp only [syncLoop, List.length_cons]
    cases h : collab c <;> simp [h] <;> omega

/-- A one-lead, one-tag state for the sync theorems. -/
def wSyncDB : TagDB :=
  { leads := [wLeadA], tagNames := ["vip"], assoc := [("1", "vip")] }

/-- C7 counterexample — the claim says both counts are reported; the views
flash a count only when it is non-zero (`if success:` / `if failed:`,
leads/views.py lines 206-209 and 270-273): a fully successful one-lead sync
produces exactly one message — the success count — and no message carrying
the failed tally of 0. -/
theorem c7_zero_count_not_reported :
    (sendToMailchimp (fun _ => false) wSyncDB ["1"]).failed = 0 ∧
    (sendToMailchimp (fun _ => false) wSyncDB ["1"]).msgs =
      [Msg.success "1 leads sent to Mailchimp."] := by
  decide

/-- C7 (amended) — In both sync variants every targeted lead is attempted:
the collaborator is called once per matched lead with its email, first name,
last name and tag names (the lead's own tags for the selection variant, the
single chosen tag for the tag variant); a result with an `'error'` key
counts as one failure and any other result as one success; the collaborator
is total (spec: failures are represented in the result), so the batch always
completes and the two tallies always sum to the number of targeted leads;
in both variants each tally is flashed only when it is non-zero (the tag
variant with no carrying leads flashes only its info message). -/
theorem c7_sync_batch (collab : SyncCall → Bool) (db : TagDB)
    (ids : List String) (tid : String)
    (hids : ids.isEmpty = false)
    (htid : tid ≠ "")
    (hmem : db.tagNames.contains tid = true) :
    (sendToMailchimp collab db ids).calls = mcSelectionCalls db ids ∧
    (sendToMailchimp collab db ids).failed =
      (mcSelectionCalls db ids).countP collab ∧
    (sendToMailchimp collab db ids).success =
      (mcSelectionCalls db ids).countP (fun c => !(collab c)) ∧
    (sendToMailchimp collab db ids).success + (sendToMailchimp collab db ids).failed =
      (db.leads.filter (fun l => ids.contains l.pk)).length ∧
    (sendToMailchimp collab db ids).msgs =
      (if (sendToMailchimp collab db ids).success ≠ 0 then
        [Msg.success (toString (sendToMailchimp collab db ids).success ++
          " leads sent to Mailchimp.")]
       else []) ++
      (if (sendToMailchimp collab db ids).failed ≠ 0 then
        [Msg.error (toString (sendToMailchimp collab db ids).failed ++
          " leads failed to send.")]
       else []) ∧
    (∃ r : SyncResult, sendTagToMailchimp collab db (some tid) = .done r ∧
      r.calls = mcTagCalls db tid ∧
      r.failed = (mcTagCalls db tid).countP collab ∧
      r.success = (mcTagCalls db tid).countP (fun c => !(collab c)) ∧
      r.success + r.failed =
        (db.leads.filter (fun l => db.assoc.contains (l.pk, tid))).length ∧
      r.msgs =
        (if (db.leads.filter (fun l => db.assoc.contains (l.pk, tid))).isEmpty then
          [Msg.info ("No leads found with tag \"" ++ tid ++ "\".")]
         else
          (if r.success ≠ 0 then
            [Msg.success (toString r.success ++
              " tagged lead(s) sent to Mailchimp (tag: " ++ tid ++ ").")]
           else []) ++
          (if r.failed ≠ 0 then
            [Msg.error (toString r.failed ++
              " tagged lead(s) failed to send to Mailchimp.")]
           else []))) := by
  have hform : sendToMailchimp collab db ids =
      { success := (syncLoop collab (mcSelectionCalls db ids)).1,
        failed := (syncLoop collab (mcSelectionCalls db ids)).2,
        msgs :=
          (if (syncLoop collab (mcSelectionCalls db ids)).1 ≠ 0 then
            [Msg.success (toString (syncLoop collab (mcSelectionCalls db ids)).1 ++
              " leads sent to Mailchimp.")]
           else []) ++
          (if (syncLoop collab (mcSelectionCalls db ids)).2 ≠ 0 then
            [Msg.error (toString (syncLoop collab (mcSelectionCalls db ids)).2 ++
              " leads failed to send.")]
           else []),
        calls := mcSelectionCalls db ids } := by
    simp only [sendToMailchimp]
    rw [if_neg (by simp [hids])]
  refine ⟨?_, ?_, ?_, ?_, ?_, ?_⟩
  · rw [hform]
  · rw [hform]
    exact syncLoop_failed collab _
  · rw [hform]
    exact syncLoop_success collab _
  · rw [hform]
    dsimp only
    have h1 := syncLoop_sum collab (mcSelectionCalls db ids)
    have h2 : (mcSelectionCalls db ids).length =
        (db.leads.filter (fun l => ids.contains l.pk)).length := by
      unfold mcSelectionCalls
      exact List.length_map _ _
    omega
  · rw [hform]
  · simp only [sendTagToMailchimp, Option.getD_some]
    rw [if_neg htid]
    simp only [hmem, Bool.not_true, Bool.false_eq_true, if_false]
    split
    · rename_i hempty
      refine ⟨_, rfl, ?_, ?_, ?_, ?_, ?_⟩
      · have h0 : db.leads.filter (fun l => db.assoc.contains (l.pk, tid)) = [] :=
          List.isEmpty_iff.mp hempty
        unfold mcTagCalls
        rw [h0]
        rfl
      · have h0 : db.leads.filter (fun l => db.assoc.contains (l.pk, tid)) = [] :=
          List.isEmpty_iff.mp hempty
        unfold mcTagCalls
        rw [h0]
        rfl
      · have h0 : db.leads.filter (fun l => db.assoc.contains (l.pk, tid)) = [] :=
          List.isEmpty_iff.mp hempty
        unfold mcTagCalls
        rw [h0]
        rfl
      · have h0 : db.leads.filter (fun l => db.assoc.contains (l.pk, tid)) = [] :=
          List.isEmpty_iff.mp hempty
        rw [h0]
        rfl
      · rfl
    · rename_i hne
      refine ⟨_, rfl, rfl, ?_, ?_, ?_, ?_⟩
      · exact syncLoop_failed collab _
      · exact syncLoop_success collab _
      · dsimp only
        have h1 := syncLoop_sum collab (mcTagCalls db tid)
        have h2 : (mcTagCalls db tid).length =
            (db.leads.filter (fun l => db.assoc.contains (l.pk, tid))).length := by
          unfold mcTagCalls
          exact List.length_map _ _
        omega
      · dsimp only

/-- Witness for C7: the batch theorem applied to a one-lead state with an
always-failing collaborator. -/
theorem c7_sync_batch_witness :
    (sendToMailchimp (fun _ => true) wSyncDB ["1"]).calls =
      mcSelectionCalls wSyncDB ["1"] ∧
    (sendToMailchimp (fun _ => true) wSyncDB ["1"]).success +
      (sendToMailchimp (fun _ => true) wSyncDB ["1"]).failed = 1 := by
  have h := c7_sync_batch (fun _ => true) wSyncDB ["1"] "vip" (by decide) (by decide)
    (by decide)
  exact ⟨h.1, h.2.2.2.1⟩
